import Mathlib

/-!
Verification of the trusted-computing scheduler filters
(`cinder/scheduler/filters/trusted_filter.py` and
`cinder/scheduler/filters/asset_tag_filter.py`) against their
natural-language specification.

The Python code is shallowly embedded: dictionaries become association
lists with Python `dict` semantics (unique keys, in-place replacement on
re-assignment, append on fresh key), timestamps become integers (seconds
since the Unix epoch), and code that can raise a Python exception is
modelled in the `Except` monad.  Library calls that are external to the
repository (`timeutils.parse_isotime`, `timeutils.parse_strtime`,
`ast.literal_eval`, the network transport) are abstracted as function
parameters, collected in an `Env` record where convenient.
-/

set_option maxRecDepth 8192

/-- Python exceptions that the modelled code can raise. -/
inductive PyError where
  | keyError (key : String)
  | attributeError (msg : String)
  deriving Repr, DecidableEq

namespace TrustedFilter

/-- A cache entry of `ComputeAttestationCache.storage_nodes`:
the Python dict `{'trust_lvl': ..., 'vtime': ...}`.  `vtime` is a naive
UTC timestamp modelled as seconds since the epoch. -/
structure Entry where
  trust_lvl : String
  vtime : Int
  deriving Repr, DecidableEq

/-- The epoch
`timeutils.normalize_time(timeutils.parse_isotime("1970-01-01T00:00:00Z"))`
is second `0` in the integer timestamp model. -/
def epochVtime : Int := 0

/-- Model of `self.storage_nodes`: a Python dict from host name to entry, modelled
as an association list with unique keys. -/
abbrev Cache := List (String × Entry)

/-- Python `d[k] = v` on a dict: replace the value in place if the key is
present (preserving its position), append otherwise. -/
def dictSet (c : Cache) (k : String) (v : Entry) : Cache :=
  match c with
  | [] => [(k, v)]
  | (k', v') :: rest =>
      if k' = k then (k, v) :: rest else (k', v') :: dictSet rest k v

/-- One per-host tuple of the attestation response (an element of the
`hosts` list).  Fields are `Option` because a malformed response may omit
them; Python raises `KeyError` on access then. -/
structure AttestState where
  host_name : Option String
  trust_lvl : Option String
  vtime : Option String
  deriving Repr, DecidableEq

/-- External context of the cache: the two timestamp parsers from
`oslo_utils.timeutils` (returning `none` where the originals raise
`ValueError`), the current time `now` (`timeutils.utcnow()`), the
configured `attestation_auth_timeout`, and the attestation oracle
`attest`, standing for the successful results of
`AttestationService.do_attestation` (the raising case of that method is
modelled separately by `do_attestation` below). -/
structure Env where
  parse_isotime : String → Option Int
  parse_strtime : String → Option Int
  now : Int
  attestation_auth_timeout : Int
  attest : List String → Option (List AttestState)

/-- Model of `timeutils.is_older_than(before, seconds)`:
`utcnow() - before > timedelta(seconds=seconds)` — a strict comparison. -/
def is_older_than (now before seconds : Int) : Bool :=
  decide (now - before > seconds)

/-- Model of `ComputeAttestationCache._cache_valid`. -/
def cache_valid (env : Env) (nodes : Cache) (host : String) : Bool :=
  match List.lookup host nodes with
  | some node_stats =>
      !(is_older_than env.now node_stats.vtime env.attestation_auth_timeout)
  | none => false

/-- The entry written by `ComputeAttestationCache._init_cache_entry`:
`trust_lvl = 'unknown'`, `vtime` = epoch. -/
def resetEntry : Entry := ⟨"unknown", epochVtime⟩

/-- Model of `ComputeAttestationCache._init_cache_entry`. -/
def init_cache_entry (nodes : Cache) (host : String) : Cache :=
  dictSet nodes host resetEntry

/-- Model of `ComputeAttestationCache._invalidate_caches`: the loop
`for host in self.storage_nodes: self._init_cache_entry(host)` re-assigns
every existing key of the dict to the reset entry, i.e. replaces every
value pointwise. -/
def invalidate_caches (nodes : Cache) : Cache :=
  nodes.map fun p => (p.1, resetEntry)

/-- The entry value computed by `ComputeAttestationCache._update_cache_entry`
once all fields were read: try `parse_isotime`, then `parse_strtime` with
the C-locale format `"%c"`; on double failure force `'unknown'` with
`vtime = utcnow()`. -/
def parsedEntry (env : Env) (lvl vt : String) : Entry :=
  match env.parse_isotime vt with
  | some t => ⟨lvl, t⟩
  | none =>
      match env.parse_strtime vt with
      | some t => ⟨lvl, t⟩
      | none => ⟨"unknown", env.now⟩

/-- Model of `ComputeAttestationCache._update_cache_entry`.  Field reads
`state['host_name']`, `state['trust_lvl']`, `state['vtime']` raise
`KeyError` when the field is absent; only the `ValueError` of the two
timestamp parses is caught by the source. -/
def update_cache_entry (env : Env) (nodes : Cache) (state : AttestState) :
    Except PyError Cache :=
  match state.host_name with
  | none => .error (.keyError "host_name")
  | some host =>
      match state.trust_lvl with
      | none => .error (.keyError "trust_lvl")
      | some lvl =>
          match state.vtime with
          | none => .error (.keyError "vtime")
          | some vt => .ok (dictSet nodes host (parsedEntry env lvl vt))

/-- The loop `for state in states: self._update_cache_entry(state)` of
`ComputeAttestationCache._update_cache`; an exception aborts it. -/
def update_cache_entries (env : Env) (nodes : Cache) :
    List AttestState → Except PyError Cache
  | [] => .ok nodes
  | state :: rest =>
      match update_cache_entry env nodes state with
      | .error e => .error e
      | .ok nodes' => update_cache_entries env nodes' rest

/-- Model of `ComputeAttestationCache._update_cache`: invalidate every tracked
entry, then issue the single batch query
`do_attestation(list(self.storage_nodes.keys()))`; `None` means stop. -/
def update_cache (env : Env) (nodes : Cache) : Except PyError Cache :=
  match env.attest ((invalidate_caches nodes).map Prod.fst) with
  | none => .ok (invalidate_caches nodes)
  | some states => update_cache_entries env (invalidate_caches nodes) states

/-- Result of `get_host_attestation`: the returned level, the cache state
left behind by the call, and how many times `do_attestation` was invoked
(0 or 1) — the instrumentation needed to state the refresh-count claims. -/
structure LookupResult where
  level : String
  nodes : Cache
  attestCalls : Nat
  deriving Repr, DecidableEq

/-- Model of `ComputeAttestationCache.get_host_attestation`.  The final
`self.storage_nodes.get(host).get('trust_lvl')` raises `AttributeError`
if the host were absent (`None.get`). -/
def get_host_attestation (env : Env) (nodes : Cache) (host : String) :
    Except PyError LookupResult :=
  let nodes1 :=
    if (List.lookup host nodes).isSome then nodes else init_cache_entry nodes host
  if cache_valid env nodes1 host then
    match List.lookup host nodes1 with
    | some e => .ok ⟨e.trust_lvl, nodes1, 0⟩
    | none => .error (.attributeError "NoneType object has no attribute")
  else
    match update_cache env nodes1 with
    | .error e => .error e
    | .ok nodes2 =>
        match List.lookup host nodes2 with
        | some e => .ok ⟨e.trust_lvl, nodes2, 1⟩
        | none => .error (.attributeError "NoneType object has no attribute")

/-- Model of `ComputeAttestation.is_trusted`: `trust == level`. -/
def is_trusted (env : Env) (nodes : Cache) (host trust : String) :
    Except PyError (Bool × LookupResult) :=
  match get_host_attestation env nodes host with
  | .error e => .error e
  | .ok r => .ok (trust == r.level, r)

/-- Model of `host_state.host.split('@')[0]`: the prefix of the composite
`host@backend` name before the first `'@'` (the whole string when no
`'@'` occurs). -/
def splitHost (s : String) : String :=
  (s.toList.takeWhile fun c => c != '@').asString

/-- Model of `TrustedFilter.backend_passes`: strip the backend suffix from
`host_state.host`, then check the explicit `trust:trusted_host`
requirement, falling back to the configured default trust level. -/
def backend_passes (default_trust_level : String) (env : Env) (nodes : Cache)
    (host : String) (metadata : List (String × String)) :
    Except PyError (Bool × LookupResult) :=
  let hostname := splitHost host
  match List.lookup "trust:trusted_host" metadata with
  | some t => is_trusted env nodes hostname t
  | none => is_trusted env nodes hostname default_trust_level

/-- The body of a 2xx attestation response, after
`jsonutils.loads(res.text)` was attempted by `_do_request`:  either a JSON
object (a Python dict, on which `data.get('hosts')` is legal and yields
the optional per-host list), or anything else — non-JSON text is returned
verbatim as a `str`, a JSON array as a `list` — on which `.get` raises
`AttributeError`. -/
inductive JsonBody where
  | jsonDict (hosts : Option (List AttestState))
  | nonDict
  deriving Repr, DecidableEq

/-- Outcome of `AttestationService._do_request`/`_request`: a 2xx status
with a body, a non-success status (`(status_code, None)`), or a transport
failure (`requests.exceptions.RequestException`, returned as
`(IOError, None)`). -/
inductive ReqOutcome where
  | okBody (b : JsonBody)
  | errStatus
  | transportFail
  deriving Repr, DecidableEq

/-- Model of `AttestationService.do_attestation` of `trusted_filter.py`:
`result = data.get('hosts')` when `data is not None`. -/
def do_attestation (r : ReqOutcome) : Except PyError (Option (List AttestState)) :=
  match r with
  | .okBody (.jsonDict hosts) => .ok hosts
  | .okBody .nonDict => .error (.attributeError "object has no attribute get")
  | .errStatus => .ok none
  | .transportFail => .ok none

end TrustedFilter

namespace TrustAssertionFilter

/-- The fields of `filter_properties['request_spec']` that
`TrustAssertionFilter.backend_passes` reads: `image_id` and
`snapshot_id`, each possibly `None`. -/
structure RequestSpec where
  image_id : Option String
  snapshot_id : Option String
  deriving Repr, DecidableEq

/-- The parts of `filter_properties` the filter reads.  `metadata` is the
volume-metadata dict; cinder metadata maps strings to strings, so values
are modelled as `String` (hence the source's comparisons of
`tag_selections` against Python `None` and `{}` are vacuously `!=` and
only the comparison with the string `'None'` remains). -/
structure FilterProps where
  request_spec : RequestSpec
  metadata : List (String × String)
  deriving Repr, DecidableEq

/-- Python `d[k] = v` on a string-valued dict (same semantics as
`TrustedFilter.dictSet`). -/
def mdSet (c : List (String × String)) (k v : String) : List (String × String) :=
  match c with
  | [] => [(k, v)]
  | (k', v') :: rest =>
      if k' = k then (k, v) :: rest else (k', v') :: mdSet rest k v

/-- Test `request_spec['image_id'] is None and request_spec['snapshot_id'] is None`. -/
def is_blank_volume (rs : RequestSpec) : Bool :=
  rs.image_id.isNone && rs.snapshot_id.isNone

/-- Model of `TrustAssertionFilter.verify_asset_tag`.  The abstracted parameter
`lit` stands for `ast.literal_eval(tag_selections.lower())` restricted to
the well-typed outcome: `some sel` when the literal is a dict mapping
strings to containers of strings, `none` when the literal fails to parse
or evaluates to anything else (every such case ends in the blanket
`except` of the source, returning `False`).  The loop over
`sel_tags.keys()` requires each selection key to be a host-tag key whose
host value is a member of the selection's value container. -/
def verify_asset_tag (lit : String → Option (List (String × List String)))
    (host_tags : List (String × String)) (tag_selections : String) : Bool :=
  match lit tag_selections with
  | none => false
  | some sel_tags =>
      sel_tags.all fun kv =>
        match List.lookup kv.1 host_tags with
        | none => false
        | some v => kv.2.contains v

/-- Decision of `TrustAssertionFilter.backend_passes` together with the
final contents of the caller's metadata dict (which the source mutates in
place when it synthesizes the blank-volume requirement). -/
structure FilterDecision where
  passes : Bool
  metadata : List (String × String)
  deriving Repr, DecidableEq

/-- Model of `TrustAssertionFilter.backend_passes`.  `create_blank_on_trusted` and
`default_asset_tags` are the `CONF.trusted_computing` options; `lit` is
the abstracted `ast.literal_eval` (see `verify_asset_tag`); `samlTrust`
and `samlTags` stand for the pair returned by
`self.verify_and_parse_saml(self.attestservice.do_attestation(hostname))`
for the candidate host. -/
def backend_passes (create_blank_on_trusted : Bool) (default_asset_tags : String)
    (lit : String → Option (List (String × List String)))
    (samlTrust : Bool) (samlTags : List (String × String))
    (props : FilterProps) : FilterDecision :=
  let metadata := props.metadata
  let blank := is_blank_volume props.request_spec
  let metadata :=
    if metadata.isEmpty && blank && create_blank_on_trusted then
      mdSet (mdSet metadata "trust" "trusted") "asset_tags" default_asset_tags
    else metadata
  let trust_verify := if (List.lookup "trust" metadata).isSome then "true" else ""
  if trust_verify != "true" then
    -- verify_trust_status stays False: return True without attestation
    ⟨true, metadata⟩
  else
    let tag_selections := (List.lookup "asset_tags" metadata).getD "None"
    let verifyTagFlag := tag_selections != "None"
    if !samlTrust then ⟨false, metadata⟩
    else if verifyTagFlag then
      ⟨verify_asset_tag lit samlTags tag_selections, metadata⟩
    else ⟨true, metadata⟩

end TrustAssertionFilter

namespace TrustedFilter

/-- Looking up the key just assigned yields the assigned value. -/
theorem lookup_dictSet_self (c : Cache) (k : String) (v : Entry) :
    List.lookup k (dictSet c k v) = some v := by
  induction c with
  | nil => simp [dictSet, List.lookup]
  | cons p rest ih =>
      obtain ⟨k', v'⟩ := p
      by_cases h : k' = k
      · simp [dictSet, h, List.lookup]
      · have hb : (k == k') = false := beq_eq_false_iff_ne.mpr (Ne.symm h)
        simp [dictSet, h, List.lookup, hb, ih]

/-- Assigning one key leaves every other key's lookup unchanged. -/
theorem lookup_dictSet_ne (c : Cache) {k₂ k : String} (v : Entry) (h : k₂ ≠ k) :
    List.lookup k₂ (dictSet c k v) = List.lookup k₂ c := by
  have hb : (k₂ == k) = false := beq_eq_false_iff_ne.mpr h
  induction c with
  | nil => simp [dictSet, List.lookup, hb]
  | cons p rest ih =>
      obtain ⟨k', v'⟩ := p
      by_cases hk : k' = k
      · subst hk; simp [dictSet, List.lookup, hb]
      · by_cases h2 : k₂ = k'
        · subst h2; simp [dictSet, hk, List.lookup]
        · have hb2 : (k₂ == k') = false := beq_eq_false_iff_ne.mpr h2
          simp [dictSet, hk, List.lookup, hb2, ih]

/-- A tracked key stays tracked after any assignment. -/
theorem lookup_isSome_dictSet (c : Cache) (k₂ k : String) (v : Entry)
    (h : (List.lookup k₂ c).isSome) :
    (List.lookup k₂ (dictSet c k v)).isSome := by
  by_cases hk : k₂ = k
  · subst hk; simp [lookup_dictSet_self]
  · rw [lookup_dictSet_ne c v hk]; exact h

/-- Invalidation replaces every tracked entry by the reset entry and
tracks nothing new. -/
theorem lookup_invalidate_caches (c : Cache) (h : String) :
    List.lookup h (invalidate_caches c) =
      (List.lookup h c).map fun _ => resetEntry := by
  induction c with
  | nil => simp [invalidate_caches, List.lookup]
  | cons p rest ih =>
      obtain ⟨k', v'⟩ := p
      by_cases hk : h = k'
      · simp [invalidate_caches, List.lookup, beq_iff_eq, hk]
      · have hb : (h == k') = false := beq_eq_false_iff_ne.mpr hk
        simpa [invalidate_caches, List.lookup, hb] using ih

/-- Invalidation does not change the tracked-host set (nor its order). -/
theorem invalidate_caches_keys (c : Cache) :
    (invalidate_caches c).map Prod.fst = c.map Prod.fst := by
  induction c with
  | nil => rfl
  | cons p rest ih => simp [invalidate_caches]

/-- Characterization of a successful `update_cache_entry`. -/
theorem update_cache_entry_ok_iff (env : Env) (nodes : Cache) (s : AttestState)
    (m : Cache) :
    update_cache_entry env nodes s = .ok m ↔
      ∃ host lvl vt, s.host_name = some host ∧ s.trust_lvl = some lvl ∧
        s.vtime = some vt ∧ m = dictSet nodes host (parsedEntry env lvl vt) := by
  obtain ⟨hn, tl, vt⟩ := s
  cases hn with
  | none => simp [update_cache_entry]
  | some host =>
      cases tl with
      | none => simp [update_cache_entry]
      | some lvl =>
          cases vt with
          | none => simp [update_cache_entry]
          | some v =>
              simp [update_cache_entry]
              constructor
              · intro h; exact h.symm
              · intro h; exact h.symm

/-- A per-host response tuple carrying all three fields. -/
def WellFormedStates (states : List AttestState) : Prop :=
  ∀ s ∈ states, s.host_name.isSome ∧ s.trust_lvl.isSome ∧ s.vtime.isSome

/-- An attestation oracle all of whose successful responses are lists of
complete per-host tuples. -/
def WellFormedOracle (env : Env) : Prop :=
  ∀ hs states, env.attest hs = some states → WellFormedStates states

/-- Processing a list of complete tuples never raises, and keeps every
tracked host tracked. -/
theorem update_cache_entries_wf (env : Env) (states : List AttestState)
    (wf : WellFormedStates states) :
    ∀ nodes : Cache, ∃ m, update_cache_entries env nodes states = .ok m ∧
      ∀ h, (List.lookup h nodes).isSome → (List.lookup h m).isSome := by
  induction states with
  | nil => intro nodes; exact ⟨nodes, rfl, fun _ hh => hh⟩
  | cons s rest ih =>
      intro nodes
      obtain ⟨h1, h2, h3⟩ := wf s (List.mem_cons_self s rest)
      obtain ⟨host, hn⟩ := Option.isSome_iff_exists.mp h1
      obtain ⟨lvl, hl⟩ := Option.isSome_iff_exists.mp h2
      obtain ⟨vt, hv⟩ := Option.isSome_iff_exists.mp h3
      have hok : update_cache_entry env nodes s =
          .ok (dictSet nodes host (parsedEntry env lvl vt)) :=
        (update_cache_entry_ok_iff env nodes s _).mpr ⟨host, lvl, vt, hn, hl, hv, rfl⟩
      have wfr : WellFormedStates rest := fun t ht => wf t (List.mem_cons_of_mem s ht)
      obtain ⟨m, hm, hkeep⟩ := ih wfr (dictSet nodes host (parsedEntry env lvl vt))
      refine ⟨m, ?_, ?_⟩
      · simp [update_cache_entries, hok, hm]
      · intro h hh
        exact hkeep h (lookup_isSome_dictSet nodes h host _ hh)

/-- A host named by no tuple of the processed list keeps its entry. -/
theorem lookup_update_cache_entries_absent (env : Env) (states : List AttestState)
    (h : String) (habs : ∀ s ∈ states, s.host_name ≠ some h) :
    ∀ nodes m, update_cache_entries env nodes states = .ok m →
      List.lookup h m = List.lookup h nodes := by
  induction states with
  | nil =>
      intro nodes m hm
      simp [update_cache_entries] at hm; subst hm; rfl
  | cons s rest ih =>
      intro nodes m hm
      simp only [update_cache_entries] at hm
      cases hu : update_cache_entry env nodes s with
      | error e => rw [hu] at hm; cases hm
      | ok nodes' =>
          rw [hu] at hm
          obtain ⟨host, lvl, vt, hn, _, _, hx⟩ :=
            (update_cache_entry_ok_iff env nodes s nodes').mp hu
          have hne : h ≠ host := by
            intro hcontra
            exact habs s (List.mem_cons_self s rest) (hcontra ▸ hn)
          have hrest : ∀ t ∈ rest, t.host_name ≠ some h :=
            fun t ht => habs t (List.mem_cons_of_mem s ht)
          rw [ih hrest nodes' m hm, hx, lookup_dictSet_ne nodes _ hne]

/-- A tracked host is still tracked after invalidation. -/
theorem lookup_invalidate_isSome (c : Cache) (h : String)
    (hh : (List.lookup h c).isSome) :
    (List.lookup h (invalidate_caches c)).isSome := by
  rw [lookup_invalidate_caches]
  cases hl : List.lookup h c with
  | none => rw [hl] at hh; cases hh
  | some e => simp

/-- With a well-formed oracle, a full refresh never raises and keeps every
tracked host tracked. -/
theorem update_cache_wf (env : Env) (nodes : Cache) (wf : WellFormedOracle env) :
    ∃ m, update_cache env nodes = .ok m ∧
      ∀ h, (List.lookup h nodes).isSome → (List.lookup h m).isSome := by
  cases ha : env.attest ((invalidate_caches nodes).map Prod.fst) with
  | none =>
      refine ⟨invalidate_caches nodes, ?_, fun h hh => lookup_invalidate_isSome nodes h hh⟩
      unfold update_cache
      rw [ha]
  | some states =>
      obtain ⟨m, hm, hkeep⟩ :=
        update_cache_entries_wf env states (wf _ states ha) (invalidate_caches nodes)
      refine ⟨m, ?_, fun h hh => hkeep h (lookup_invalidate_isSome nodes h hh)⟩
      unfold update_cache
      rw [ha]
      exact hm

/-- A concrete environment for closed test instances: both timestamp
parsers always fail, the clock reads second 200, the staleness window is
the default 60 seconds, and the attestation authority always returns no
data. -/
def envNone : Env :=
  ⟨fun _ => none, fun _ => none, 200, 60, fun _ => none⟩

/-- Claim C2, counterexample.  Starting from a cache holding
`h1` verified at second 100 and `h2` verified at second 190, a single
public lookup of `h1` at second 200 (staleness window 60) triggers a
refresh whose invalidate step stores `vtime = 0` for both hosts — in
particular `h2`'s `verified_at` drops from 190 to the epoch, so a cache
operation does store a `vtime` earlier than the entry's current one. -/
theorem c2_counterexample :
    List.lookup "h2"
        [("h1", (⟨"trusted", 100⟩ : Entry)), ("h2", ⟨"trusted", 190⟩)] =
      some ⟨"trusted", 190⟩ ∧
    get_host_attestation envNone
        [("h1", ⟨"trusted", 100⟩), ("h2", ⟨"trusted", 190⟩)] "h1" =
      .ok ⟨"unknown", [("h1", ⟨"unknown", 0⟩), ("h2", ⟨"unknown", 0⟩)], 1⟩ ∧
    (0 : Int) < 190 := by
  refine ⟨rfl, rfl, by decide⟩

/-- Claim C2, amended: `verified_at` is not monotonically non-decreasing.
The refresh's invalidate step resets every tracked entry to
(`unknown`, epoch), which strictly decreases `vtime` for any entry
verified after the epoch; only lookups that find the cache valid leave
every entry (and in fact the whole cache) unchanged, issuing no
attestation query. -/
theorem c2_amended :
    (∀ (nodes : Cache) (h : String) (e : Entry),
        List.lookup h nodes = some e →
        List.lookup h (invalidate_caches nodes) = some resetEntry) ∧
    (∀ (env : Env) (nodes : Cache) (h : String),
        cache_valid env nodes h = true →
        ∃ r, get_host_attestation env nodes h = .ok r ∧
          r.nodes = nodes ∧ r.attestCalls = 0) := by
  constructor
  · intro nodes h e he
    rw [lookup_invalidate_caches, he]
    rfl
  · intro env nodes h hv
    have hsome : (List.lookup h nodes).isSome = true := by
      unfold cache_valid at hv
      cases hl : List.lookup h nodes with
      | none => rw [hl] at hv; cases hv
      | some e => rfl
    obtain ⟨e, he⟩ := Option.isSome_iff_exists.mp hsome
    refine ⟨⟨e.trust_lvl, nodes, 0⟩, ?_, rfl, rfl⟩
    simp [get_host_attestation, he, hv]

/-- Claim C2, witness for the amended statement: instantiating both parts
at concrete inputs. -/
theorem c2_witness :
    List.lookup "h1" (invalidate_caches [("h1", (⟨"trusted", 100⟩ : Entry))]) =
      some resetEntry ∧
    ∃ r, get_host_attestation envNone [("h1", ⟨"trusted", 190⟩)] "h1" = .ok r ∧
      r.nodes = [("h1", ⟨"trusted", 190⟩)] ∧ r.attestCalls = 0 :=
  ⟨c2_amended.1 [("h1", ⟨"trusted", 100⟩)] "h1" ⟨"trusted", 100⟩ rfl,
   c2_amended.2 envNone [("h1", ⟨"trusted", 190⟩)] "h1" (by decide)⟩

/-- Claim C5: a refresh first resets every tracked entry to
(`unknown`, epoch), then issues exactly one batch attestation query over
the currently tracked hosts; a no-data reply leaves every entry in the
reset state, and a tracked host named by no tuple of a successful reply
keeps the reset state as well. -/
theorem c5_refresh (env : Env) (nodes : Cache) :
    (∀ h, (List.lookup h nodes).isSome →
        List.lookup h (invalidate_caches nodes) = some resetEntry) ∧
    update_cache env nodes =
      (match env.attest (nodes.map Prod.fst) with
       | none => .ok (invalidate_caches nodes)
       | some states => update_cache_entries env (invalidate_caches nodes) states) ∧
    (env.attest (nodes.map Prod.fst) = none →
        update_cache env nodes = .ok (invalidate_caches nodes)) ∧
    (∀ states m h, env.attest (nodes.map Prod.fst) = some states →
        update_cache env nodes = .ok m →
        (∀ s ∈ states, s.host_name ≠ some h) →
        (List.lookup h nodes).isSome →
        List.lookup h m = some resetEntry) := by
  have hreset : ∀ h, (List.lookup h nodes).isSome →
      List.lookup h (invalidate_caches nodes) = some resetEntry := by
    intro h hh
    obtain ⟨e, he⟩ := Option.isSome_iff_exists.mp hh
    rw [lookup_invalidate_caches, he]
    rfl
  have hshape : update_cache env nodes =
      (match env.attest (nodes.map Prod.fst) with
       | none => .ok (invalidate_caches nodes)
       | some states => update_cache_entries env (invalidate_caches nodes) states) := by
    unfold update_cache
    rw [invalidate_caches_keys]
  refine ⟨hreset, hshape, ?_, ?_⟩
  · intro hns
    rw [hshape, hns]
  · intro states m h ha hm habs hh
    rw [hshape, ha] at hm
    rw [lookup_update_cache_entries_absent env states h habs
          (invalidate_caches nodes) m hm]
    exact hreset h hh

/-- Claim C5, witness: a refresh of a one-host cache whose authority
returns no data ends with that host reset to (`unknown`, epoch). -/
theorem c5_witness :
    update_cache envNone [("h1", (⟨"trusted", 100⟩ : Entry))] =
      .ok [("h1", resetEntry)] :=
  (c5_refresh envNone [("h1", ⟨"trusted", 100⟩)]).2.2.1 rfl

/-- Claim C6: a refresh's per-host tuple has its timestamp parsed first
as ISO-8601, then with the C-locale textual format; on double failure the
entry is forced to `unknown` with `verified_at = now`, otherwise the
reported level is stored verbatim with the parsed timestamp. -/
theorem c6_vtime_parse (env : Env) (nodes : Cache) (host lvl vt : String) :
    (∀ t, env.parse_isotime vt = some t →
        update_cache_entry env nodes ⟨some host, some lvl, some vt⟩ =
          .ok (dictSet nodes host ⟨lvl, t⟩)) ∧
    (∀ t, env.parse_isotime vt = none → env.parse_strtime vt = some t →
        update_cache_entry env nodes ⟨some host, some lvl, some vt⟩ =
          .ok (dictSet nodes host ⟨lvl, t⟩)) ∧
    (env.parse_isotime vt = none → env.parse_strtime vt = none →
        update_cache_entry env nodes ⟨some host, some lvl, some vt⟩ =
          .ok (dictSet nodes host ⟨"unknown", env.now⟩)) := by
  refine ⟨?_, ?_, ?_⟩ <;> intros <;> simp [update_cache_entry, parsedEntry, *]

/-- A concrete environment whose ISO parser accepts exactly the string
`iso-good` (as second 100) and whose C-locale parser accepts exactly
`ctime-good` (as second 5). -/
def envParse : Env :=
  ⟨fun s => if s = "iso-good" then some 100 else none,
   fun s => if s = "ctime-good" then some 5 else none,
   200, 60, fun _ => none⟩

/-- Claim C6, witness: the three parse branches at concrete inputs. -/
theorem c6_witness :
    update_cache_entry envParse [] ⟨some "h1", some "trusted", some "iso-good"⟩ =
      .ok [("h1", ⟨"trusted", 100⟩)] ∧
    update_cache_entry envParse [] ⟨some "h1", some "trusted", some "ctime-good"⟩ =
      .ok [("h1", ⟨"trusted", 5⟩)] ∧
    update_cache_entry envParse [] ⟨some "h1", some "trusted", some "garbage"⟩ =
      .ok [("h1", ⟨"unknown", 200⟩)] :=
  ⟨(c6_vtime_parse envParse [] "h1" "trusted" "iso-good").1 100 rfl,
   (c6_vtime_parse envParse [] "h1" "trusted" "ctime-good").2.1 5 rfl rfl,
   (c6_vtime_parse envParse [] "h1" "trusted" "garbage").2.2 rfl rfl⟩

/-- A valid cache entry is returned as-is: no refresh, no query. -/
theorem get_host_attestation_valid (env : Env) (nodes : Cache) (h : String)
    (e : Entry) (he : List.lookup h nodes = some e)
    (hv : cache_valid env nodes h = true) :
    get_host_attestation env nodes h = .ok ⟨e.trust_lvl, nodes, 0⟩ := by
  simp [get_host_attestation, he, hv]

/-- A tracked but invalid entry forces one refresh, after which the level
is read back from the refreshed cache. -/
theorem get_host_attestation_stale (env : Env) (nodes m : Cache) (h : String)
    (e e' : Entry) (he : List.lookup h nodes = some e)
    (hv : cache_valid env nodes h = false)
    (hu : update_cache env nodes = .ok m)
    (he' : List.lookup h m = some e') :
    get_host_attestation env nodes h = .ok ⟨e'.trust_lvl, m, 1⟩ := by
  simp [get_host_attestation, he, hv, hu, he']

/-- A lookup of an untracked host proceeds exactly as a lookup of the
same host after its lazy entry creation. -/
theorem get_host_attestation_untracked (env : Env) (nodes : Cache) (host : String)
    (hl : List.lookup host nodes = none) :
    get_host_attestation env nodes host =
      get_host_attestation env (init_cache_entry nodes host) host := by
  have h2 : (List.lookup host (init_cache_entry nodes host)).isSome = true := by
    unfold init_cache_entry
    rw [lookup_dictSet_self]
    rfl
  simp [get_host_attestation, hl, h2]

/-- With a well-formed oracle, a lookup of a tracked host never raises,
and the number of attestation queries records whether the entry was
stale. -/
theorem get_host_attestation_wf_tracked (env : Env) (nodes : Cache) (host : String)
    (e : Entry) (he : List.lookup host nodes = some e) (wf : WellFormedOracle env) :
    ∃ r, get_host_attestation env nodes host = .ok r ∧
      r.attestCalls =
        if env.now - e.vtime > env.attestation_auth_timeout then 1 else 0 := by
  have htr : (List.lookup host nodes).isSome = true := by rw [he]; rfl
  by_cases hst : env.now - e.vtime > env.attestation_auth_timeout
  · have hv : cache_valid env nodes host = false := by
      simp [cache_valid, he, is_older_than, hst]
    obtain ⟨m, hu, hkeep⟩ := update_cache_wf env nodes wf
    obtain ⟨e', he'⟩ := Option.isSome_iff_exists.mp (hkeep host htr)
    exact ⟨⟨e'.trust_lvl, m, 1⟩,
      get_host_attestation_stale env nodes m host e e' he hv hu he',
      by simp [hst]⟩
  · have hv : cache_valid env nodes host = true := by
      simp [cache_valid, he, is_older_than, hst]
    exact ⟨⟨e.trust_lvl, nodes, 0⟩,
      get_host_attestation_valid env nodes host e he hv, by simp [hst]⟩

/-- With a well-formed oracle, a lookup never raises. -/
theorem get_host_attestation_wf (env : Env) (nodes : Cache) (host : String)
    (wf : WellFormedOracle env) :
    ∃ r, get_host_attestation env nodes host = .ok r := by
  cases hl : List.lookup host nodes with
  | some e =>
      obtain ⟨r, hr, _⟩ := get_host_attestation_wf_tracked env nodes host e hl wf
      exact ⟨r, hr⟩
  | none =>
      rw [get_host_attestation_untracked env nodes host hl]
      obtain ⟨r, hr, _⟩ := get_host_attestation_wf_tracked env
        (init_cache_entry nodes host) host resetEntry
        (by unfold init_cache_entry; rw [lookup_dictSet_self]) wf
      exact ⟨r, hr⟩

/-- Claim C4, counterexample.  With a staleness window of 60 seconds, an
entry whose age is exactly 60 seconds (`now = 60`, `verified_at = 0`)
satisfies `now - verified_at >= staleness_window`, yet the lookup finds
the cache valid and performs no refresh and no attestation query
(`attestCalls = 0`): the code's staleness test is the strict
`now - verified_at > staleness_window`. -/
theorem c4_counterexample :
    (60 : Int) - 0 ≥ 60 ∧
    get_host_attestation ⟨fun _ => none, fun _ => none, 60, 60, fun _ => none⟩
        [("h1", ⟨"trusted", 0⟩)] "h1" =
      .ok ⟨"trusted", [("h1", ⟨"trusted", 0⟩)], 0⟩ := by
  exact ⟨by decide, rfl⟩

/-- Claim C4, amended: an entry of a tracked host is stale exactly when
`now - verified_at > staleness_window` (strictly; at age exactly equal to
the window no refresh happens), and a lookup performs exactly one batch
refresh call when the entry is stale and none otherwise. -/
theorem c4_staleness (env : Env) (nodes : Cache) (host : String) (e : Entry)
    (he : List.lookup host nodes = some e) (wf : WellFormedOracle env) :
    cache_valid env nodes host =
      !(decide (env.now - e.vtime > env.attestation_auth_timeout)) ∧
    ∃ r, get_host_attestation env nodes host = .ok r ∧
      r.attestCalls =
        if env.now - e.vtime > env.attestation_auth_timeout then 1 else 0 := by
  constructor
  · simp [cache_valid, he, is_older_than]
  · exact get_host_attestation_wf_tracked env nodes host e he wf

/-- Claim C4, witness: with window 60 and `now = 200`, a lookup of an
entry verified 30 seconds ago issues no attestation query, and one of an
entry verified 120 seconds ago issues exactly one. -/
theorem c4_witness :
    (∃ r, get_host_attestation envNone [("h1", ⟨"trusted", 170⟩)] "h1" = .ok r ∧
        r.attestCalls = 0) ∧
    (∃ r, get_host_attestation envNone [("h1", ⟨"trusted", 80⟩)] "h1" = .ok r ∧
        r.attestCalls = 1) := by
  constructor
  · obtain ⟨_, ⟨r, hr, hc⟩⟩ := c4_staleness envNone [("h1", ⟨"trusted", 170⟩)]
      "h1" ⟨"trusted", 170⟩ rfl (fun _ _ h => nomatch h)
    rw [if_neg (by decide)] at hc
    exact ⟨r, hr, hc⟩
  · obtain ⟨_, ⟨r, hr, hc⟩⟩ := c4_staleness envNone [("h1", ⟨"trusted", 80⟩)]
      "h1" ⟨"trusted", 80⟩ rfl (fun _ _ h => nomatch h)
    rw [if_pos (by decide)] at hc
    exact ⟨r, hr, hc⟩

/-- When every tracked entry for a host is `unknown` and the authority
yields no data, a lookup of the host returns `unknown`. -/
theorem get_attestation_unknown (env : Env) (nodes : Cache) (host : String)
    (hunk : ∀ e, List.lookup host nodes = some e → e.trust_lvl = "unknown")
    (hnone : ∀ hs, env.attest hs = none) :
    ∃ r, get_host_attestation env nodes host = .ok r ∧ r.level = "unknown" := by
  have hcore : ∀ (c : Cache) (e : Entry), List.lookup host c = some e →
      e.trust_lvl = "unknown" →
      ∃ r, get_host_attestation env c host = .ok r ∧ r.level = "unknown" := by
    intro c e he htl
    by_cases hv : cache_valid env c host = true
    · exact ⟨⟨e.trust_lvl, c, 0⟩,
        get_host_attestation_valid env c host e he hv, htl⟩
    · have hv' : cache_valid env c host = false := by simpa using hv
      have hu : update_cache env c = .ok (invalidate_caches c) := by
        unfold update_cache
        rw [hnone]
      have hreset : List.lookup host (invalidate_caches c) = some resetEntry := by
        rw [lookup_invalidate_caches, he]
        rfl
      exact ⟨⟨resetEntry.trust_lvl, invalidate_caches c, 1⟩,
        get_host_attestation_stale env c (invalidate_caches c) host e resetEntry
          he hv' hu hreset, rfl⟩
  cases hl : List.lookup host nodes with
  | some e => exact hcore nodes e hl (hunk e hl)
  | none =>
      rw [get_host_attestation_untracked env nodes host hl]
      exact hcore (init_cache_entry nodes host) resetEntry
        (by unfold init_cache_entry; rw [lookup_dictSet_self]) rfl

/-- Claim C9: a host that was never successfully attested (untracked, or
tracked as `unknown`, with every refresh yielding no data) is reported at
trust level `unknown` by the cache, so `is_trusted` — and hence the
trusted filter's `backend_passes` — answers `false` for any equality
requirement against a level other than `unknown` (e.g. `trusted`). -/
theorem c9_unknown_rejected (env : Env) (nodes : Cache) (dflt host trust : String)
    (hhost : splitHost host = host)
    (hunk : ∀ e, List.lookup host nodes = some e → e.trust_lvl = "unknown")
    (hnone : ∀ hs, env.attest hs = none)
    (htr : trust ≠ "unknown") :
    ∃ r, get_host_attestation env nodes host = .ok r ∧ r.level = "unknown" ∧
      is_trusted env nodes host trust = .ok (false, r) ∧
      backend_passes dflt env nodes host [("trust:trusted_host", trust)] =
        .ok (false, r) := by
  obtain ⟨r, hr, hlev⟩ := get_attestation_unknown env nodes host hunk hnone
  have hbeq : (trust == r.level) = false := by
    rw [hlev]
    exact beq_eq_false_iff_ne.mpr htr
  have hit : is_trusted env nodes host trust = .ok (false, r) := by
    simp [is_trusted, hr, hbeq]
  refine ⟨r, hr, hlev, hit, ?_⟩
  simp only [backend_passes, List.lookup, beq_self_eq_true, hhost]
  exact hit

/-- Claim C9, witness: a never-tracked host against requirement
`trusted` with an unreachable authority is rejected. -/
theorem c9_witness :
    ∃ r, get_host_attestation envNone [] "h1" = .ok r ∧ r.level = "unknown" ∧
      is_trusted envNone [] "h1" "trusted" = .ok (false, r) ∧
      backend_passes "trusted" envNone [] "h1"
          [("trust:trusted_host", "trusted")] = .ok (false, r) :=
  c9_unknown_rejected envNone [] "trusted" "h1" "trusted" (by decide)
    (fun _ he => nomatch he) (fun _ => rfl) (by decide)

/-- Claim C3, counterexample.  Two inputs on which a core operation
raises past its boundary: the trusted filter's attestation query applied
to a 2xx response whose body is not a JSON object (`data.get('hosts')` on
a `str`) raises `AttributeError`, and the cache update applied to a
per-host tuple lacking the `vtime` field raises `KeyError` (only
`ValueError` is caught there). -/
theorem c3_counterexample :
    do_attestation (.okBody .nonDict) =
      .error (.attributeError "object has no attribute get") ∧
    update_cache_entry envNone [] ⟨some "h1", some "trusted", none⟩ =
      .error (.keyError "vtime") :=
  ⟨rfl, rfl⟩

/-- Claim C3, amended: transport failures and non-2xx statuses are
surfaced as "no data" without raising, a 2xx JSON-object body yields its
optional `hosts` list, and every cache lookup (and `is_trusted`) is total
provided the per-host tuples of successful responses carry all three
fields; but a 2xx non-JSON-object body makes the client raise, and a
tuple missing a field makes the cache update raise, so the operations are
not total on all inputs. -/
theorem c3_totality :
    do_attestation .transportFail = .ok none ∧
    do_attestation .errStatus = .ok none ∧
    (∀ hosts, do_attestation (.okBody (.jsonDict hosts)) = .ok hosts) ∧
    (∀ (env : Env) (nodes : Cache) (host : String), WellFormedOracle env →
        ∃ r, get_host_attestation env nodes host = .ok r) ∧
    (∀ (env : Env) (nodes : Cache) (host trust : String), WellFormedOracle env →
        ∃ b r, is_trusted env nodes host trust = .ok (b, r)) := by
  refine ⟨rfl, rfl, fun _ => rfl, get_host_attestation_wf, ?_⟩
  intro env nodes host trust wf
  obtain ⟨r, hr⟩ := get_host_attestation_wf env nodes host wf
  exact ⟨trust == r.level, r, by unfold is_trusted; rw [hr]⟩

/-- Claim C3, witness: the no-raise conjuncts at concrete inputs. -/
theorem c3_witness :
    do_attestation .transportFail = .ok none ∧
    ∃ r, get_host_attestation envNone [] "h1" = .ok r :=
  ⟨c3_totality.1, c3_totality.2.2.2.1 envNone [] "h1" (fun _ _ h => nomatch h)⟩

end TrustedFilter

namespace TrustAssertionFilter

/-- A concrete stand-in for `ast.literal_eval` on lowered selection
strings: `sel-env-prod` parses to the selection requiring tag `env` to be
`prod`, `sel-empty` to the empty selection, and everything else (for
instance `bad`) fails to parse. -/
def litSample : String → Option (List (String × List String)) := fun s =>
  if s = "sel-env-prod" then some [("env", ["prod"])]
  else if s = "sel-empty" then some []
  else none

/-- Claim C7: for a selection string that parses to a well-formed
selection, `verify_asset_tag` is true exactly when every selection key is
a host-tag key whose host value belongs to the selection's accepted-value
set; the empty selection is vacuously true. -/
theorem c7_tag_matching (lit : String → Option (List (String × List String)))
    (host_tags : List (String × String)) (s : String)
    (sel : List (String × List String)) (hp : lit s = some sel) :
    (verify_asset_tag lit host_tags s = true ↔
       ∀ kv ∈ sel, ∃ v, List.lookup kv.1 host_tags = some v ∧ v ∈ kv.2) ∧
    (sel = [] → verify_asset_tag lit host_tags s = true) := by
  have hmain : verify_asset_tag lit host_tags s = true ↔
      ∀ kv ∈ sel, ∃ v, List.lookup kv.1 host_tags = some v ∧ v ∈ kv.2 := by
    simp only [verify_asset_tag, hp, List.all_eq_true]
    constructor
    · intro h kv hkv
      have hx := h kv hkv
      cases hl : List.lookup kv.1 host_tags with
      | none => simp only [hl] at hx; cases hx
      | some v =>
          simp only [hl] at hx
          exact ⟨v, rfl, by simpa using hx⟩
    · intro h kv hkv
      obtain ⟨v, hv, hmem⟩ := h kv hkv
      simp only [hv]
      simpa using hmem
  refine ⟨hmain, fun hsel => hmain.mpr ?_⟩
  subst hsel
  intro kv hkv
  exact absurd hkv (List.not_mem_nil kv)

/-- Claim C7, witness: the spec's three concrete tag-matching examples. -/
theorem c7_witness :
    verify_asset_tag litSample [("env", "prod"), ("tier", "gold")]
      "sel-env-prod" = true ∧
    verify_asset_tag litSample [("env", "dev")] "sel-env-prod" = false ∧
    verify_asset_tag litSample [("env", "prod")] "sel-empty" = true := by
  refine ⟨?_, by decide, ?_⟩
  · exact (c7_tag_matching litSample [("env", "prod"), ("tier", "gold")]
      "sel-env-prod" [("env", ["prod"])] rfl).1.mpr
      (by intro kv hkv; simp at hkv; subst hkv; exact ⟨"prod", rfl, by simp⟩)
  · exact (c7_tag_matching litSample [("env", "prod")] "sel-empty" [] rfl).2 rfl

/-- Claim C8: a tag-selection string that fails to parse makes
`verify_asset_tag` false, and a request that requires trust and carries
such a malformed (non-`'None'`) selection is rejected by `backend_passes`
whatever the host's attested trust and tags are. -/
theorem c8_malformed_fail_closed :
    (∀ (lit : String → Option (List (String × List String)))
        (host_tags : List (String × String)) (s : String),
        lit s = none → verify_asset_tag lit host_tags s = false) ∧
    (∀ (cb : Bool) (dat : String)
        (lit : String → Option (List (String × List String)))
        (samlTrust : Bool) (samlTags : List (String × String))
        (props : FilterProps) (tv s : String),
        List.lookup "trust" props.metadata = some tv →
        List.lookup "asset_tags" props.metadata = some s →
        s ≠ "None" → lit s = none →
        (backend_passes cb dat lit samlTrust samlTags props).passes = false) := by
  have hfail : ∀ (lit : String → Option (List (String × List String)))
      (host_tags : List (String × String)) (s : String),
      lit s = none → verify_asset_tag lit host_tags s = false := by
    intro lit host_tags s h
    simp [verify_asset_tag, h]
  refine ⟨hfail, ?_⟩
  intro cb dat lit samlTrust samlTags props tv s htrust hsel hsnone hlit
  have hne : props.metadata.isEmpty = false := by
    cases hm : props.metadata with
    | nil => rw [hm] at htrust; cases htrust
    | cons a t => rfl
  have hflag : (s != "None") = true := bne_iff_ne.mpr hsnone
  cases samlTrust <;>
    simp [backend_passes, hne, htrust, hsel, hflag, hfail lit samlTags s hlit]

/-- Claim C8, witness: a trust-requiring request with the unparsable
selection string `bad` is rejected even for an attested-trusted host. -/
theorem c8_witness :
    (backend_passes true "None" litSample true [("env", "prod")]
        ⟨⟨some "img", none⟩, [("trust", "trusted"), ("asset_tags", "bad")]⟩).passes
      = false :=
  c8_malformed_fail_closed.2 true "None" litSample true [("env", "prod")]
    ⟨⟨some "img", none⟩, [("trust", "trusted"), ("asset_tags", "bad")]⟩
    "trusted" "bad" rfl rfl (by decide) rfl

/-- Claim C1, counterexample.  Both requests below are blank (no image,
no snapshot), carry no trust metadata, and run with
`create_blank_on_trusted = true` against a host whose attestation reports
untrusted.  The claim says both should evaluate the synthesized default
requirement, but the request whose metadata dict is non-empty
(`{'foo': 'bar'}`) is accepted unconditionally — the source synthesizes
only when `metadata == {}` — while the empty-metadata request evaluates
the requirement and is rejected.  (The third conjunct shows the claim
also fails for `TrustedFilter.backend_passes`, which never accepts
unconditionally: with no trust metadata it still checks the host against
the configured default level and here rejects.) -/
theorem c1_counterexample :
    (backend_passes true "None" litSample false []
        ⟨⟨none, none⟩, [("foo", "bar")]⟩).passes = true ∧
    (backend_passes true "None" litSample false []
        ⟨⟨none, none⟩, []⟩).passes = false ∧
    TrustedFilter.backend_passes "trusted" TrustedFilter.envNone [] "h1" [] =
      .ok (false, ⟨"unknown", [("h1", TrustedFilter.resetEntry)], 1⟩) :=
  ⟨rfl, rfl, rfl⟩

/-- Claim C1, amended (for the asset-tag filter; the trusted filter
instead always evaluates the host against an explicit or default trust
level): a request whose metadata carries no `trust` key is accepted
unconditionally, unless its metadata dict is entirely empty, the request
is blank, and `create_blank_on_trusted` is set — in which case the
evaluation proceeds exactly as if the metadata were the synthesized
requirement `trust = 'trusted'` plus the configured default tag
selection. -/
theorem c1_no_requirement (cb : Bool) (dat : String)
    (lit : String → Option (List (String × List String)))
    (samlTrust : Bool) (samlTags : List (String × String))
    (props : FilterProps)
    (hnotrust : List.lookup "trust" props.metadata = none) :
    ((props.metadata.isEmpty && is_blank_volume props.request_spec && cb) = false →
        (backend_passes cb dat lit samlTrust samlTags props).passes = true) ∧
    ((props.metadata.isEmpty && is_blank_volume props.request_spec && cb) = true →
        backend_passes cb dat lit samlTrust samlTags props =
          backend_passes cb dat lit samlTrust samlTags
            ⟨props.request_spec, [("trust", "trusted"), ("asset_tags", dat)]⟩) := by
  constructor
  · intro hcond
    simp [backend_passes, hcond, hnotrust]
  · intro hcond
    simp only [Bool.and_eq_true] at hcond
    have hmd : props.metadata = [] := by
      cases hm : props.metadata with
      | nil => rfl
      | cons a t => rw [hm] at hcond; simp [List.isEmpty] at hcond
    obtain ⟨rs, md⟩ := props
    simp only at hmd
    subst hmd
    simp [backend_passes, mdSet, hcond.1.2, hcond.2, List.lookup]

/-- Claim C1, witness for the amended statement: a non-blank request with
empty metadata is accepted without any requirement, and a blank
empty-metadata request is evaluated exactly as the synthesized
requirement. -/
theorem c1_witness :
    (backend_passes true "None" litSample false []
        ⟨⟨some "img", none⟩, []⟩).passes = true ∧
    backend_passes true "None" litSample true [("env", "prod")]
        ⟨⟨none, none⟩, []⟩ =
      backend_passes true "None" litSample true [("env", "prod")]
        ⟨⟨none, none⟩, [("trust", "trusted"), ("asset_tags", "None")]⟩ :=
  ⟨(c1_no_requirement true "None" litSample false [] ⟨⟨some "img", none⟩, []⟩
      rfl).1 rfl,
   (c1_no_requirement true "None" litSample true [("env", "prod")]
      ⟨⟨none, none⟩, []⟩ rfl).2 rfl⟩

/-- Claim C10: evaluating a blank request with an entirely empty metadata
dict under `create_blank_on_trusted` writes exactly the keys `trust` and
`asset_tags` into the caller's metadata dict (the decision's `metadata`
component models the dict left behind in the caller's
`filter_properties`); on every other input the metadata dict is returned
unchanged. -/
theorem c10_metadata_mutation (cb : Bool) (dat : String)
    (lit : String → Option (List (String × List String)))
    (samlTrust : Bool) (samlTags : List (String × String))
    (props : FilterProps) :
    ((props.metadata.isEmpty && is_blank_volume props.request_spec && cb) = true →
        (backend_passes cb dat lit samlTrust samlTags props).metadata =
          [("trust", "trusted"), ("asset_tags", dat)]) ∧
    ((props.metadata.isEmpty && is_blank_volume props.request_spec && cb) = false →
        (backend_passes cb dat lit samlTrust samlTags props).metadata =
          props.metadata) := by
  have hshape : (backend_passes cb dat lit samlTrust samlTags props).metadata =
      if props.metadata.isEmpty && is_blank_volume props.request_spec && cb then
        mdSet (mdSet props.metadata "trust" "trusted") "asset_tags" dat
      else props.metadata := by
    simp only [backend_passes]
    repeat' first | rfl | split
  constructor
  · intro hcond
    have hmd : props.metadata = [] := by
      cases hm : props.metadata with
      | nil => rfl
      | cons a t =>
          rw [hm] at hcond
          simp [List.isEmpty] at hcond
    rw [hshape, if_pos hcond, hmd]
    simp [mdSet]
  · intro hcond
    rw [hshape, if_neg (by simp [hcond])]

/-- Claim C10, witness: the two frame conditions at concrete inputs. -/
theorem c10_witness :
    (backend_passes true "tags-x" litSample false [] ⟨⟨none, none⟩, []⟩).metadata =
      [("trust", "trusted"), ("asset_tags", "tags-x")] ∧
    (backend_passes true "tags-x" litSample false []
        ⟨⟨some "img", none⟩, [("a", "b")]⟩).metadata = [("a", "b")] :=
  ⟨(c10_metadata_mutation true "tags-x" litSample false []
      ⟨⟨none, none⟩, []⟩).1 rfl,
   (c10_metadata_mutation true "tags-x" litSample false []
      ⟨⟨some "img", none⟩, [("a", "b")]⟩).2 rfl⟩

end TrustAssertionFilter
